import Mathlib

/-! Verification development for the AdaptiveEducation course-recommendation
application: a shallow embedding of the recommendation scorer
(`recommender/ml_service.py`, helpers from `build_sbm_project.py`), the
course-selection form validation (`recommender/forms.py`), the enrollment data
model (`recommender/models.py`) and the recommendation views
(`recommender/views.py`), together with theorems about them.

Numbers are embedded as rationals (`ℚ`): the claims under study are about the
structure of the scoring pipeline (which codes are kept, which factors are
multiplied, how results are ordered and truncated), not about floating-point
rounding. -/

namespace AdaptiveEducation

/-- Python `s.split(sep)` for a one-character separator, by structural recursion
over the character list: `pySplitAux sep rest acc` processes `rest` with the
(reversed) characters of the current field in `acc`. `"".split(",") = [""]`. -/
def pySplitAux (sep : Char) : List Char → List Char → List String
  | [], acc => [String.mk acc.reverse]
  | c :: rest, acc =>
      if c = sep then String.mk acc.reverse :: pySplitAux sep rest []
      else pySplitAux sep rest (c :: acc)

/-- Python `s.split(sep)` for a one-character separator. -/
def pySplit (sep : Char) (s : String) : List String :=
  pySplitAux sep s.data []

/-- Python `s.strip()`: drop whitespace from both ends. -/
def pyStrip (s : String) : String :=
  String.mk ((s.data.dropWhile Char.isWhitespace).reverse.dropWhile Char.isWhitespace).reverse

/-- `{i.strip() for i in s.split(",") if i.strip()}` — the comma-split,
stripped, non-empty pieces of a free-text tag field.  Used for the interest set
(`ml_service.py` line 39) and the course tag set (line 79).  The Python value is
a set; it is embedded as the list of pieces in order, which is only ever used
through membership and emptiness of intersections, so duplicates and order are
immaterial. -/
def splitTags (s : String) : List String :=
  ((pySplit ',' s).map pyStrip).filter (fun t => t ≠ "")

/-- `Course` record from `recommender/models.py`: `code` is the primary key,
`prerequisites` is the many-to-many edge set materialised as the list of
prerequisite course codes (`values_list("code", flat=True)`, distinct by the
through-table constraint), `tags` is the free-text comma-separated tag field. -/
structure Course where
  code : String
  name : String
  ects : ℚ
  semester : Int
  kind : String
  block : String
  req_math : Int
  req_prog : Int
  req_ai : Int
  req_soft : Int
  prerequisites : List String
  tags : String
deriving DecidableEq

/-- `StudentProfile` record from `recommender/models.py` (the `user` foreign key
is carried separately as an identifier where needed). -/
structure StudentProfile where
  year : Int
  math_level : ℚ
  prog_level : ℚ
  ai_level : ℚ
  soft_level : ℚ
  interests : String
deriving DecidableEq

/-- Django field defaults of `StudentProfile` (`models.py` lines 35-40). -/
instance : Inhabited StudentProfile :=
  ⟨{ year := 1, math_level := 0, prog_level := 0, ai_level := 0, soft_level := 0,
     interests := "" }⟩

/-- The interest vocabulary `interest_cols` of `build_sbm_project.encode_features`. -/
def interest_cols : List String :=
  ["ai", "data", "web", "systems", "security", "management", "ux", "science"]

/-- `build_sbm_project.encode_features` for a single student row: year, the four
skill levels, then one 0/1 entry per interest column, set when the column name
occurs verbatim in `interests.split(",")` (no stripping in the source). -/
def encode_features (s : StudentProfile) : List ℚ :=
  [(s.year : ℚ), s.math_level, s.prog_level, s.ai_level, s.soft_level] ++
    interest_cols.map (fun tag => if tag ∈ pySplit ',' s.interests then (1 : ℚ) else 0)

/-- The saved model artifact, as `recommend_for_profile` consumes it:
`classes_` (the label order of the classifier) and `predict_proba` on one
encoded feature row, returning the per-class probability row.  `joblib` payload
loading is abstracted; a missing artifact is an `Option.none` at the call
sites. -/
structure SBMModel where
  classes : List String
  predict_proba : List ℚ → List ℚ

/-- Python dict comprehension `{c.code: c for c in Course.objects.all()}`
followed by `.get(code)`: for a repeated key the last entry wins, so lookup
returns the last course in the list bearing the code (course codes are unique
in the database, being the primary key). -/
def coursesGet (courses : List Course) (code : String) : Option Course :=
  courses.reverse.find? (fun c => c.code == code)

/-- `prereq_map.get(code, set())` (`ml_service.py` lines 58 and 74): the
prerequisite code set of the course the catalog dict holds under `code`, or the
empty set.  `set(...)` is embedded as `List.dedup`. -/
def prereqsOf (courses : List Course) (code : String) : List String :=
  ((coursesGet courses code).map (fun c => c.prerequisites.dedup)).getD []

/-- `taken_grades.get(c)` (`ml_service.py` line 62): a missing key and a stored
`None` both come out as `None`. -/
def dictGet (grades : List (String × Option ℚ)) (c : String) : Option ℚ :=
  match grades.lookup c with
  | some v => v
  | none => none

/-- `avg_grade_for_codes` (`ml_service.py` lines 61-65): the mean of the grades
recorded for the given codes, or `None` when none of them has a grade.  The
argument is the (deduplicated) prerequisite code set; set iteration order does
not matter because rational addition is commutative. -/
def avg_grade_for_codes (grades : List (String × Option ℚ)) (codes : List String) :
    Option ℚ :=
  let vals := codes.filterMap (dictGet grades)
  if vals = [] then none else some (vals.sum / vals.length)

/-- `overall_avg_grade` (`ml_service.py` lines 37-38): mean over all non-`None`
values of the grade dict, or `None` if there are none. -/
def overall_avg_grade (grades : List (String × Option ℚ)) : Option ℚ :=
  let grade_values := (grades.map Prod.snd).filterMap id
  if grade_values = [] then none else some (grade_values.sum / grade_values.length)

/-- The interest-match bonus (`ml_service.py` lines 79-80): ×1.15 when the
course tag set meets the student interest set, ×1.0 otherwise. -/
def interest_weight (course : Course) (student : StudentProfile) : ℚ :=
  if (splitTags course.tags).inter (splitTags student.interests) ≠ [] then 23/20 else 1

/-- The per-course prerequisite grade average with its fallback
(`ml_service.py` lines 82-84): average over the course prerequisites if any of
them has a grade, otherwise the student overall average. -/
def prereq_avg_for (grades : List (String × Option ℚ)) (prereqs : List String) :
    Option ℚ :=
  match avg_grade_for_codes grades prereqs with
  | some a => some a
  | none => overall_avg_grade grades

/-- The grade-based factor (`ml_service.py` lines 86-89): 1.0 with no grade
information, else `0.75 + avg / 100 * 0.5`. -/
def grade_weight_of (avg : Option ℚ) : ℚ :=
  match avg with
  | none => 1
  | some a => 3/4 + a / 100 * (1/2)

/-- Loop body of `recommend_for_profile` (`ml_service.py` lines 67-91) for one
`(label, probability)` pair of `zip(labels, proba)`: drop labels without a
catalog course, non-elective courses, codes already taken, and codes whose
prerequisite set is not contained in the taken set; otherwise score the code.
`code = str(label)` is the label itself in this embedding. -/
def score_entry (courses : List Course) (student : StudentProfile)
    (taken_codes : List String) (taken_grades : List (String × Option ℚ))
    (lp : String × ℚ) : Option (String × ℚ) :=
  match coursesGet courses lp.1 with
  | none => none
  | some course =>
      if course.kind ≠ "вибіркова" then none
      else if lp.1 ∈ taken_codes then none
      else if ¬ prereqsOf courses lp.1 ⊆ taken_codes then none
      else some (lp.1,
        lp.2 * interest_weight course student *
          grade_weight_of (prereq_avg_for taken_grades (prereqsOf courses lp.1)))

/-- The `results` list of `recommend_for_profile` before sorting: one scored
entry per surviving `(label, probability)` pair, in label order. -/
def scored_results (m : SBMModel) (courses : List Course) (student : StudentProfile)
    (taken_codes : List String) (taken_grades : List (String × Option ℚ)) :
    List (String × ℚ) :=
  (m.classes.zip (m.predict_proba (encode_features student))).filterMap
    (score_entry courses student taken_codes taken_grades)

/-- Comparator of `results.sort(key=lambda x: x[1], reverse=True)`: `a` may
precede `b` when `a`'s score is at least `b`'s.  Python `list.sort` is stable,
so the sort is embedded as the stable `List.mergeSort` under this comparator. -/
def scoreLE (a b : String × ℚ) : Bool := decide (b.2 ≤ a.2)

/-- The retrain instruction raised by `recommend_for_profile` when the model
artifact is missing (`ml_service.py` line 33). -/
def retrain_message : String :=
  "Модель не знайдено. Спершу натренуйте її командою train_sbm_model."

/-- `recommend_for_profile` (`ml_service.py` lines 24-94).  The loaded artifact
(or its absence, when the file does not exist on disk) is the `model` argument;
the course catalog read from the database is `courses`.  A `RuntimeError` is an
`Except.error`.  `top_k` is a natural number, matching the claims (the callers
pass 5); `results[:top_k]` is `List.take`. -/
def recommend_for_profile (model : Option SBMModel) (courses : List Course)
    (student : StudentProfile) (taken_codes : List String)
    (taken_grades : List (String × Option ℚ)) (top_k : Nat) :
    Except String (List (String × ℚ)) :=
  match model with
  | none => Except.error retrain_message
  | some m =>
      Except.ok
        (((scored_results m courses student taken_codes taken_grades).mergeSort
            scoreLE).take top_k)

/-- Modelled from the spec for the comparison in C3 ("applying the interest
bonus only affects courses whose tags intersect the student's interests"): the
scoring step of `score_entry` with the interest-match bonus not applied. -/
def score_entry_without_bonus (courses : List Course) (taken_codes : List String)
    (taken_grades : List (String × Option ℚ)) (lp : String × ℚ) :
    Option (String × ℚ) :=
  match coursesGet courses lp.1 with
  | none => none
  | some course =>
      if course.kind ≠ "вибіркова" then none
      else if lp.1 ∈ taken_codes then none
      else if ¬ prereqsOf courses lp.1 ⊆ taken_codes then none
      else some (lp.1,
        lp.2 * grade_weight_of (prereq_avg_for taken_grades (prereqsOf courses lp.1)))

/-- Modelled from the spec for the comparison in C3: the candidate list scored
without the interest bonus. -/
def scored_results_without_bonus (m : SBMModel) (courses : List Course)
    (student : StudentProfile) (taken_codes : List String)
    (taken_grades : List (String × Option ℚ)) : List (String × ℚ) :=
  (m.classes.zip (m.predict_proba (encode_features student))).filterMap
    (score_entry_without_bonus courses taken_codes taken_grades)

/-! ### Course-selection form validation (`recommender/forms.py`) -/

/-- Python string comparison: lexicographic on the character sequences. -/
def strLe (a b : String) : Bool := decide (a.data ≤ b.data)

/-- Python `sorted` on strings (a stable sort, embedded as `mergeSort`). -/
def pySortStrings (l : List String) : List String := l.mergeSort strLe

/-- One iteration of the `clean_courses` loop (`forms.py` lines 63-64):
`prereqs = set(self.prereq_map.get(code, []))`,
`missing = sorted(prereqs - selected_codes)`. -/
def missing_for (prereq_map : List (String × List String)) (selected_codes : List String)
    (code : String) : List String :=
  pySortStrings ((((prereq_map.lookup code).getD []).dedup).filter
    (fun p => p ∉ selected_codes))

/-- The `invalid` list of `StudentCoursesForm.clean_courses` (`forms.py` lines
61-66): for each selected code in sorted order, the sorted list of its
prerequisites not also selected, kept when non-empty. -/
def invalid_selections (prereq_map : List (String × List String))
    (selected_codes : List String) : List (String × List String) :=
  (pySortStrings selected_codes.dedup).filterMap (fun code =>
    let missing := missing_for prereq_map selected_codes code
    if missing = [] then none else some (code, missing))

/-- The `ValidationError` text of `clean_courses` (`forms.py` lines 69-72). -/
def prereq_error_message (invalid : List (String × List String)) : String :=
  "Неможливо обрати дисципліни без пререквізитів: " ++
    String.intercalate "; " (invalid.map (fun cm =>
      cm.1 ++ " (потрібно: " ++ String.intercalate ", " cm.2 ++ ")"))

/-- `StudentCoursesForm.clean_courses` (`forms.py` lines 57-74): reject the
selection when some selected course has a prerequisite code not also selected,
with a message listing the offending codes and their missing prerequisites;
otherwise return the selection unchanged. -/
def clean_courses (prereq_map : List (String × List String)) (courses : List Course) :
    Except String (List Course) :=
  let selected_codes := courses.map (fun c => c.code)
  let invalid := invalid_selections prereq_map selected_codes
  if invalid = [] then Except.ok courses
  else Except.error (prereq_error_message invalid)

/-! ### Data model rows and views (`recommender/models.py`, `recommender/views.py`) -/

/-- The columns `models.py` lines 46-56 actually declare on
`StudentCourseEnrollment` (auto primary key aside): the student and course
foreign keys and the status. **No `grade` column is declared**, although
`views.py` lines 80, 133 and 146 read and write one (see C7). -/
def studentCourseEnrollmentColumns : List String := ["student", "course", "status"]

/-- The column lookups requested by the `student_courses` view
(`views.py` line 133): `values_list("course__code", "grade")`. -/
def studentCoursesGradeQuery : List String := ["course__code", "grade"]

/-- Django resolution of a `values_list` lookup against a model's column list:
the lookup is the name of a column, or traverses a relation named by a column
via `"__"`. -/
def resolveColumn (columns : List String) (lk : String) : Bool :=
  columns.any (fun col => lk == col || (col ++ "__").data.isPrefixOf lk.data)

/-- Whether a whole `values_list` query resolves. -/
def queryResolves (columns : List String) (lks : List String) : Bool :=
  lks.all (resolveColumn columns)

/-- Enrollment row as the views consume it: student, course code, status and
optional grade.  `models.py` omits the `grade` column the views rely on — that
divergence is the subject of C7; the views-level embedding includes the field
so that the views' control flow can be stated at all. -/
structure StudentCourseEnrollment where
  student : Nat
  course : String
  status : String
  grade : Option ℚ
deriving DecidableEq

/-- `Recommendation` row from `models.py` lines 62-66 (timestamp omitted: it is
only used for display ordering). -/
structure Recommendation where
  student : Nat
  course : String
  score : ℚ
deriving DecidableEq

/-- The stored state the recommendation views touch, plus the (read-only) model
artifact as found on disk. -/
structure Db where
  model : Option SBMModel
  courses : List Course
  profiles : List (Nat × StudentProfile)
  enrollments : List StudentCourseEnrollment
  recommendations : List Recommendation

/-- A rendered recommendations page: the flashed messages and the displayed
recommendation rows. -/
structure Page where
  messages : List String
  recommendations : List Recommendation
deriving DecidableEq

/-- `StudentProfile.objects.get_or_create(user=user)` (`views.py` lines 52-54):
return the stored profile, creating one with field defaults when absent. -/
def ensure_student_profile (db : Db) (uid : Nat) : StudentProfile × Db :=
  match db.profiles.lookup uid with
  | some p => (p, db)
  | none => (default, { db with profiles := db.profiles ++ [(uid, default)] })

/-- `StudentCourseEnrollment.objects.filter(student=..., status="completed")`
(`views.py` lines 200 and 290). -/
def completed_enrollments (db : Db) (sid : Nat) : List StudentCourseEnrollment :=
  db.enrollments.filter (fun e => e.student == sid && e.status == "completed")

/-- `taken = list(enrollments.values_list("course__code", flat=True))`. -/
def taken_of (db : Db) (sid : Nat) : List String :=
  (completed_enrollments db sid).map (fun e => e.course)

/-- `grades = {code: grade for code, grade in ... if grade is not None}`
(`views.py` lines 202 and 292), as the grade dict handed to the scorer. -/
def grades_of (db : Db) (sid : Nat) : List (String × Option ℚ) :=
  (completed_enrollments db sid).filterMap (fun e =>
    match e.grade with
    | some g => some (e.course, some g)
    | none => none)

/-- The `new_recs` construction of both recommendation views (`views.py` lines
210-217 and 295-302): `Course.objects.in_bulk(codes, field_name="code")`
followed by a lookup per scored code, skipping codes without a catalog row. -/
def new_recs_of (courses : List Course) (sid : Nat) (recs : List (String × ℚ)) :
    List Recommendation :=
  recs.filterMap (fun cs => (coursesGet courses cs.1).map
    (fun _ => { student := sid, course := cs.1, score := cs.2 }))

/-- The `transaction.atomic()` block of both recommendation views (`views.py`
lines 219-222 and 304-307): delete the student's stored rows and bulk-create
the new ones, as a single state transition. -/
def replace_recommendations (db : Db) (sid : Nat) (new_recs : List Recommendation) : Db :=
  { db with recommendations :=
      db.recommendations.filter (fun r => !(r.student == sid)) ++ new_recs }

/-- The `student_recommendations` view (`views.py` lines 196-225): compute
fresh recommendations for the logged-in student; on the scorer's
`RuntimeError`, flash the message and render the stored rows unchanged;
on success, atomically replace the stored rows and render them. -/
def student_recommendations (db : Db) (uid : Nat) : Page × Db :=
  let pdb := ensure_student_profile db uid
  let profile := pdb.1
  let db := pdb.2
  match recommend_for_profile db.model db.courses profile (taken_of db uid)
      (grades_of db uid) 5 with
  | Except.error e =>
      ({ messages := [e],
         recommendations := db.recommendations.filter (fun r => r.student == uid) }, db)
  | Except.ok recs =>
      let db := replace_recommendations db uid (new_recs_of db.courses uid recs)
      ({ messages := [],
         recommendations := db.recommendations.filter (fun r => r.student == uid) }, db)

/-- The `teacher_student_recommendations` view (`views.py` lines 286-310):
`get_object_or_404`, then the scorer **without a `try/except`** — the
`RuntimeError` for a missing artifact propagates out of the view — then the
same atomic replacement and rendering as the student view. -/
def teacher_student_recommendations (db : Db) (student_id : Nat) :
    Except String (Page × Db) :=
  match db.profiles.lookup student_id with
  | none => Except.error "Http404"
  | some student =>
      match recommend_for_profile db.model db.courses student (taken_of db student_id)
          (grades_of db student_id) 5 with
      | Except.error e => Except.error e
      | Except.ok recs =>
          let db := replace_recommendations db student_id
            (new_recs_of db.courses student_id recs)
          let page : Page :=
            { messages := [],
              recommendations := db.recommendations.filter (fun r => r.student == student_id) }
          Except.ok (page, db)

/-- `recommend_for_profile` as a transition on the stored state: the function
body only performs reads (`os.path.exists`/`joblib.load` of the artifact,
`Course.objects.all()` and the prerequisite edges), so the state component is
returned unchanged. -/
def recommendDb (db : Db) (student : StudentProfile) (taken_codes : List String)
    (taken_grades : List (String × Option ℚ)) (top_k : Nat) :
    Except String (List (String × ℚ)) × Db :=
  (recommend_for_profile db.model db.courses student taken_codes taken_grades top_k, db)

/-! ### Concrete data for witnesses and counterexamples -/

/-- An elective course without prerequisites. -/
def courseA : Course :=
  { code := "A", name := "A", ects := 5, semester := 1, kind := "вибіркова",
    block := "загальна", req_math := 0, req_prog := 0, req_ai := 0, req_soft := 0,
    prerequisites := [], tags := "" }

/-- An elective course whose only prerequisite is `"A"`. -/
def courseB : Course :=
  { code := "B", name := "B", ects := 5, semester := 2, kind := "вибіркова",
    block := "загальна", req_math := 0, req_prog := 0, req_ai := 0, req_soft := 0,
    prerequisites := ["A"], tags := "" }

/-- An elective course with code `"B"` and no prerequisites. -/
def courseBFree : Course :=
  { code := "B", name := "B", ects := 5, semester := 2, kind := "вибіркова",
    block := "загальна", req_math := 0, req_prog := 0, req_ai := 0, req_soft := 0,
    prerequisites := [], tags := "" }

/-- A catalog in which only `"A"` is immediately eligible. -/
def demoCatalog : List Course := [courseA, courseB]

/-- A catalog in which both `"A"` and `"B"` are immediately eligible. -/
def demoCatalogFree : List Course := [courseA, courseBFree]

/-- A concrete two-class model artifact. -/
def demoModel : SBMModel := { classes := ["A", "B"], predict_proba := fun _ => [2, 1] }

/-- A concrete student with all profile defaults. -/
def demoStudent : StudentProfile :=
  { year := 1, math_level := 0, prog_level := 0, ai_level := 0, soft_level := 0,
    interests := "" }

/-- A state with no model artifact and one stored student profile. -/
def db0 : Db :=
  { model := none, courses := demoCatalog, profiles := [(0, demoStudent)],
    enrollments := [], recommendations := [] }

/-- A state with no model artifact and one previously stored recommendation
row for the student. -/
def db1 : Db :=
  { model := none, courses := demoCatalog, profiles := [(0, demoStudent)],
    enrollments := [], recommendations := [⟨0, "Z", 1⟩] }

/-- A state with a model artifact, one student and stale recommendation rows
for this and another student. -/
def db2 : Db :=
  { model := some demoModel, courses := demoCatalog, profiles := [(0, demoStudent)],
    enrollments := [], recommendations := [⟨0, "Z", 1⟩, ⟨7, "Q", 1⟩] }

/-! ### Inversion of the scoring loop -/

/-- A successful `score_entry` pins down the course, the eligibility checks it
passed and the shape of the score. -/
lemma score_entry_eq_some {courses : List Course} {student : StudentProfile}
    {taken_codes : List String} {taken_grades : List (String × Option ℚ)}
    {lp e : String × ℚ}
    (h : score_entry courses student taken_codes taken_grades lp = some e) :
    ∃ course, coursesGet courses lp.1 = some course ∧ course.kind = "вибіркова" ∧
      lp.1 ∉ taken_codes ∧ prereqsOf courses lp.1 ⊆ taken_codes ∧
      e = (lp.1, lp.2 * interest_weight course student *
        grade_weight_of (prereq_avg_for taken_grades (prereqsOf courses lp.1))) := by
  unfold score_entry at h
  cases hcg : coursesGet courses lp.1 with
  | none => rw [hcg] at h; cases h
  | some course =>
      rw [hcg] at h
      dsimp only at h
      split_ifs at h with h1 h2 h3
      exact ⟨course, rfl, not_not.mp h1, h2, h3, (Option.some.inj h).symm⟩

/-- Membership in the scored candidate list, unpacked. -/
lemma mem_scored_results {m : SBMModel} {courses : List Course}
    {student : StudentProfile} {taken_codes : List String}
    {taken_grades : List (String × Option ℚ)} {e : String × ℚ}
    (he : e ∈ scored_results m courses student taken_codes taken_grades) :
    ∃ p course,
      (e.1, p) ∈ m.classes.zip (m.predict_proba (encode_features student)) ∧
      coursesGet courses e.1 = some course ∧ course.kind = "вибіркова" ∧
      e.1 ∉ taken_codes ∧ prereqsOf courses e.1 ⊆ taken_codes ∧
      e.2 = p * interest_weight course student *
        grade_weight_of (prereq_avg_for taken_grades (prereqsOf courses e.1)) := by
  unfold scored_results at he
  rw [List.mem_filterMap] at he
  obtain ⟨lp, hmem, hsome⟩ := he
  obtain ⟨course, hcg, hkind, hnt, hsub, hee⟩ := score_entry_eq_some hsome
  subst hee
  exact ⟨lp.2, course, by simpa using hmem, hcg, hkind, hnt, hsub, rfl⟩

/-- Every returned recommendation list arises by truncating the stable sort of
the candidate list. -/
lemma recommend_ok_inv {m : SBMModel} {courses : List Course}
    {student : StudentProfile} {taken_codes : List String}
    {taken_grades : List (String × Option ℚ)} {top_k : Nat} {r : List (String × ℚ)}
    (h : recommend_for_profile (some m) courses student taken_codes taken_grades top_k
      = Except.ok r) :
    r = ((scored_results m courses student taken_codes taken_grades).mergeSort
      scoreLE).take top_k := by
  simpa [recommend_for_profile] using h.symm

/-- C1: every course code in the list returned by `recommend_for_profile` is
absent from the taken set, and the full prerequisite set of that course as
recorded in the catalog's prerequisite map is a subset of the taken set. -/
theorem recommended_codes_untaken_with_prereqs_satisfied
    (model : Option SBMModel) (courses : List Course) (student : StudentProfile)
    (taken_codes : List String) (taken_grades : List (String × Option ℚ))
    (top_k : Nat) (r : List (String × ℚ))
    (h : recommend_for_profile model courses student taken_codes taken_grades top_k
      = Except.ok r) :
    ∀ e ∈ r, e.1 ∉ taken_codes ∧ prereqsOf courses e.1 ⊆ taken_codes := by
  cases model with
  | none => exact absurd h (by simp [recommend_for_profile])
  | some m =>
      intro e he
      rw [recommend_ok_inv h] at he
      have he2 := List.mem_mergeSort.mp (List.mem_of_mem_take he)
      obtain ⟨p, course, -, -, -, hnt, hsub, -⟩ := mem_scored_results he2
      exact ⟨hnt, hsub⟩

/-- C5: the returned list has length at most `top_k`. -/
theorem recommendations_length_le_top_k
    (model : Option SBMModel) (courses : List Course) (student : StudentProfile)
    (taken_codes : List String) (taken_grades : List (String × Option ℚ))
    (top_k : Nat) (r : List (String × ℚ))
    (h : recommend_for_profile model courses student taken_codes taken_grades top_k
      = Except.ok r) :
    r.length ≤ top_k := by
  cases model with
  | none => exact absurd h (by simp [recommend_for_profile])
  | some m => rw [recommend_ok_inv h]; exact List.length_take_le _ _

/-! ### Concrete evaluations used by the witnesses -/

/-- With the demo catalog, only `"A"` survives the filters; its score is the
bare probability. -/
lemma demo_scored :
    scored_results demoModel demoCatalog demoStudent [] [] = [("A", 2)] := by
  have h : scored_results demoModel demoCatalog demoStudent [] []
      = [("A", 2 * 1 * 1)] := rfl
  rw [h]; norm_num

/-- With the free demo catalog both classes survive, in label order. -/
lemma demo_scored_free :
    scored_results demoModel demoCatalogFree demoStudent [] []
      = [("A", 2), ("B", 1)] := by
  have h : scored_results demoModel demoCatalogFree demoStudent [] []
      = [("A", 2 * 1 * 1), ("B", 1 * 1 * 1)] := rfl
  rw [h]; norm_num

/-- Demo evaluation of the full scorer on the gated catalog. -/
lemma demo_recommend :
    recommend_for_profile (some demoModel) demoCatalog demoStudent [] [] 5
      = Except.ok [("A", 2)] := by
  show Except.ok (((scored_results demoModel demoCatalog demoStudent [] []).mergeSort
    scoreLE).take 5) = _
  rw [demo_scored, List.mergeSort_singleton]
  rfl

/-- Demo evaluation of the full scorer on the free catalog with `top_k = 1`:
two eligible candidates, one returned. -/
lemma demo_recommend_free :
    recommend_for_profile (some demoModel) demoCatalogFree demoStudent [] [] 1
      = Except.ok [("A", 2)] := by
  show Except.ok (((scored_results demoModel demoCatalogFree demoStudent [] []).mergeSort
    scoreLE).take 1) = _
  rw [demo_scored_free, List.mergeSort_of_sorted (by decide)]
  rfl

/-- Witness for C1 at a concrete input. -/
theorem recommended_codes_untaken_with_prereqs_satisfied_witness :
    ("A" : String) ∉ ([] : List String) ∧
      prereqsOf demoCatalog "A" ⊆ ([] : List String) :=
  recommended_codes_untaken_with_prereqs_satisfied (some demoModel) demoCatalog
    demoStudent [] [] 5 [("A", 2)] demo_recommend ("A", 2) (List.mem_singleton.mpr rfl)

/-- Witness for C5 at a concrete input with two eligible candidates and
`top_k = 1`. -/
theorem recommendations_length_le_top_k_witness :
    ([("A", 2)] : List (String × ℚ)).length ≤ 1 :=
  recommendations_length_le_top_k (some demoModel) demoCatalogFree demoStudent [] []
    1 [("A", 2)] demo_recommend_free

/-! ### Order and stability of the returned list -/

lemma scoreLE_trans (a b c : String × ℚ) (h1 : scoreLE a b) (h2 : scoreLE b c) :
    scoreLE a c := by
  simp only [scoreLE, decide_eq_true_eq] at h1 h2 ⊢
  exact h2.trans h1

lemma scoreLE_total (a b : String × ℚ) : scoreLE a b || scoreLE b a := by
  simp only [scoreLE, Bool.or_eq_true, decide_eq_true_eq]
  exact le_total b.2 a.2

/-- Two distinct members of a list occur in one of the two relative orders. -/
lemma pair_sublist_of_mem {α : Type _} {a b : α} {l : List α}
    (ha : a ∈ l) (hb : b ∈ l) (hne : a ≠ b) :
    [a, b].Sublist l ∨ [b, a].Sublist l := by
  induction l with
  | nil => cases ha
  | cons x t ih =>
      rcases List.mem_cons.mp ha with rfl | ha2
      · rcases List.mem_cons.mp hb with rfl | hb2
        · exact absurd rfl hne
        · exact Or.inl ((List.singleton_sublist.mpr hb2).cons₂ a)
      · rcases List.mem_cons.mp hb with rfl | hb2
        · exact Or.inr ((List.singleton_sublist.mpr ha2).cons₂ b)
        · rcases ih ha2 hb2 with hp | hp
          · exact Or.inl (hp.cons x)
          · exact Or.inr (hp.cons x)

/-- In a duplicate-free list both relative orders of a pair force equality. -/
lemma eq_of_pair_sublist_both {α : Type _} {a b : α} :
    ∀ {l : List α}, l.Nodup → [a, b].Sublist l → [b, a].Sublist l → a = b := by
  intro l
  induction l with
  | nil => intro _ h1; cases h1
  | cons x t ih =>
      intro hnd h1 h2
      have hx : x ∉ t := (List.nodup_cons.mp hnd).1
      have hndt : t.Nodup := (List.nodup_cons.mp hnd).2
      cases h1 with
      | cons _ h1t =>
          cases h2 with
          | cons _ h2t => exact ih hndt h1t h2t
          | cons₂ h2t =>
              exact absurd (h1t.subset (by simp)) hx
      | cons₂ h1t =>
          cases h2 with
          | cons _ h2t =>
              exact absurd (h2t.subset (by simp)) hx
          | cons₂ h2t => rfl

/-- `filterMap` through a first-component-preserving function keeps the first
components a sublist of the inputs' first components. -/
lemma map_fst_filterMap_sublist {f : String × ℚ → Option (String × ℚ)}
    (hf : ∀ x y, f x = some y → y.1 = x.1) :
    ∀ l : List (String × ℚ), ((l.filterMap f).map Prod.fst).Sublist (l.map Prod.fst) := by
  intro l
  induction l with
  | nil => simp
  | cons x t ih =>
      cases hfx : f x with
      | none =>
          rw [List.filterMap_cons_none hfx, List.map_cons]
          exact ih.cons x.1
      | some y =>
          rw [List.filterMap_cons_some hfx, List.map_cons, List.map_cons, hf x y hfx]
          exact ih.cons₂ x.1

/-- The first components of a zip form a sublist of the first list. -/
lemma map_fst_zip_sublist {α β : Type _} :
    ∀ (l1 : List α) (l2 : List β), ((l1.zip l2).map Prod.fst).Sublist l1
  | [], _ => by simp
  | _ :: _, [] => by simp
  | a :: t1, b :: t2 => by
      simpa using (map_fst_zip_sublist t1 t2).cons₂ a

/-- The scored codes appear as a sublist of the classifier's label order. -/
lemma map_fst_scored_sublist (m : SBMModel) (courses : List Course)
    (student : StudentProfile) (taken_codes : List String)
    (taken_grades : List (String × Option ℚ)) :
    ((scored_results m courses student taken_codes taken_grades).map
      Prod.fst).Sublist m.classes := by
  have h1 := map_fst_filterMap_sublist
    (f := score_entry courses student taken_codes taken_grades)
    (fun x y hxy => by
      obtain ⟨c, -, -, -, -, hy⟩ := score_entry_eq_some hxy
      rw [hy])
    (m.classes.zip (m.predict_proba (encode_features student)))
  exact h1.trans (by simpa using map_fst_zip_sublist m.classes _)

/-- Distinct classifier labels give a duplicate-free candidate list. -/
lemma scored_results_nodup {m : SBMModel} (courses : List Course)
    (student : StudentProfile) (taken_codes : List String)
    (taken_grades : List (String × Option ℚ)) (hnd : m.classes.Nodup) :
    (scored_results m courses student taken_codes taken_grades).Nodup :=
  (((map_fst_scored_sublist m courses student taken_codes taken_grades).nodup
    hnd).of_map _)

/-- C2: the returned list is sorted by non-increasing final score, and two
returned entries with equal scores appear with their labels in the
classifier's label order (Python `list.sort` is stable). -/
theorem recommendations_sorted_ties_in_label_order
    (m : SBMModel) (courses : List Course) (student : StudentProfile)
    (taken_codes : List String) (taken_grades : List (String × Option ℚ))
    (top_k : Nat) (r : List (String × ℚ))
    (hnd : m.classes.Nodup)
    (h : recommend_for_profile (some m) courses student taken_codes taken_grades top_k
      = Except.ok r) :
    r.Pairwise (fun a b => b.2 ≤ a.2) ∧
      ∀ a b : String × ℚ, [a, b].Sublist r → a.2 = b.2 →
        [a.1, b.1].Sublist m.classes := by
  have hr := recommend_ok_inv h
  constructor
  · have hs := List.sorted_mergeSort scoreLE_trans scoreLE_total
      (scored_results m courses student taken_codes taken_grades)
    have hs2 : ((scored_results m courses student taken_codes taken_grades).mergeSort
        scoreLE).Pairwise (fun a b : String × ℚ => b.2 ≤ a.2) :=
      hs.imp (fun hab => by simpa [scoreLE] using hab)
    rw [hr]
    exact List.Pairwise.sublist (List.take_sublist _ _) hs2
  · intro a b hab heq
    rw [hr] at hab
    have hab2 : [a, b].Sublist ((scored_results m courses student taken_codes
        taken_grades).mergeSort scoreLE) :=
      hab.trans (List.take_sublist _ _)
    have hnodup := scored_results_nodup courses student taken_codes taken_grades hnd
    have hnodup2 : ((scored_results m courses student taken_codes
        taken_grades).mergeSort scoreLE).Nodup :=
      ((List.mergeSort_perm _ scoreLE).nodup_iff).mpr hnodup
    have hne : a ≠ b := by
      have hpairnd := hab2.nodup hnodup2
      simp only [List.nodup_cons, List.mem_singleton] at hpairnd
      exact hpairnd.1
    have hma : a ∈ scored_results m courses student taken_codes taken_grades :=
      List.mem_mergeSort.mp (hab2.subset (by simp))
    have hmb : b ∈ scored_results m courses student taken_codes taken_grades :=
      List.mem_mergeSort.mp (hab2.subset (by simp))
    rcases pair_sublist_of_mem hma hmb hne with hpair | hpair
    · have hmap : [a.1, b.1].Sublist ((scored_results m courses student taken_codes
          taken_grades).map Prod.fst) := by
        simpa using hpair.map Prod.fst
      exact hmap.trans (map_fst_scored_sublist m courses student taken_codes taken_grades)
    · have hba : [b, a].Sublist ((scored_results m courses student taken_codes
          taken_grades).mergeSort scoreLE) :=
        List.pair_sublist_mergeSort scoreLE_trans scoreLE_total
          (by simp [scoreLE, heq]) hpair
      exact absurd (eq_of_pair_sublist_both hnodup2 hab2 hba) hne

/-- A model artifact assigning both classes the same probability. -/
def demoModelTie : SBMModel :=
  { classes := ["A", "B"], predict_proba := fun _ => [1, 1] }

/-- With tied probabilities over the free catalog the two candidates keep
label order. -/
lemma demo_recommend_tie :
    recommend_for_profile (some demoModelTie) demoCatalogFree demoStudent [] [] 5
      = Except.ok [("A", 1), ("B", 1)] := by
  have hs : scored_results demoModelTie demoCatalogFree demoStudent [] []
      = [("A", 1), ("B", 1)] := by
    have h : scored_results demoModelTie demoCatalogFree demoStudent [] []
        = [("A", 1 * 1 * 1), ("B", 1 * 1 * 1)] := rfl
    rw [h]
    norm_num
  show Except.ok (((scored_results demoModelTie demoCatalogFree demoStudent [] []).mergeSort
    scoreLE).take 5) = _
  rw [hs, List.mergeSort_of_sorted (by decide)]
  rfl

/-- Witness for C2 at a concrete input with a genuine tie: the two equal-score
entries come back with their labels in the classifier's label order. -/
theorem recommendations_sorted_ties_in_label_order_witness :
    ([("A", 1), ("B", 1)] : List (String × ℚ)).Pairwise (fun a b => b.2 ≤ a.2) ∧
      (["A", "B"] : List String).Sublist demoModelTie.classes := by
  have h := recommendations_sorted_ties_in_label_order demoModelTie demoCatalogFree
    demoStudent [] [] 5 [("A", 1), ("B", 1)] (by decide) demo_recommend_tie
  exact ⟨h.1, h.2 ("A", 1) ("B", 1) (List.Sublist.refl _) rfl⟩

/-! ### The interest bonus and the grade factor -/

/-- A list intersection is non-empty exactly when the two lists share a
member. -/
lemma inter_ne_nil_iff {l1 l2 : List String} :
    l1.inter l2 ≠ [] ↔ ∃ t, t ∈ l1 ∧ t ∈ l2 := by
  constructor
  · intro h
    obtain ⟨t, ht⟩ := List.exists_mem_of_ne_nil _ h
    exact ⟨t, List.mem_inter_iff.mp ht⟩
  · rintro ⟨t, h1, h2⟩ hnil
    have hmem : t ∈ l1.inter l2 := List.mem_inter_iff.mpr ⟨h1, h2⟩
    rw [hnil] at hmem
    cases hmem

/-- `filterMap` over the same list through two functions that agree on
definedness and satisfy `R` on their values yields `Forall₂ R`. -/
lemma forall2_filterMap {α β γ : Type _} {f : α → Option β} {g : α → Option γ}
    {R : β → γ → Prop}
    (hfg : ∀ x, (f x = none ↔ g x = none) ∧
      ∀ y z, f x = some y → g x = some z → R y z) :
    ∀ l : List α, List.Forall₂ R (l.filterMap f) (l.filterMap g) := by
  intro l
  induction l with
  | nil => simp
  | cons x t ih =>
      cases hfx : f x with
      | none =>
          have hgx : g x = none := ((hfg x).1).mp hfx
          rw [List.filterMap_cons_none hfx, List.filterMap_cons_none hgx]
          exact ih
      | some y =>
          cases hgx : g x with
          | none =>
              have : f x = none := ((hfg x).1).mpr hgx
              rw [this] at hfx; cases hfx
          | some z =>
              rw [List.filterMap_cons_some hfx, List.filterMap_cons_some hgx]
              exact List.Forall₂.cons ((hfg x).2 y z hfx hgx) ih

/-- C3: pointwise along the candidate list, the score with the bonus applied is
the bonus-free score multiplied by the interest weight; the multiplier is
exactly 23/20 (= 1.15) when the course tag set meets the student interest set
and leaves the score unchanged otherwise. -/
theorem interest_bonus_multiplies_matching_only
    (m : SBMModel) (courses : List Course) (student : StudentProfile)
    (taken_codes : List String) (taken_grades : List (String × Option ℚ)) :
    List.Forall₂ (fun nb wb : String × ℚ =>
        nb.1 = wb.1 ∧
        ∃ course, coursesGet courses nb.1 = some course ∧
          wb.2 = interest_weight course student * nb.2 ∧
          ((¬ ∃ t, t ∈ splitTags course.tags ∧ t ∈ splitTags student.interests) →
            wb.2 = nb.2) ∧
          ((∃ t, t ∈ splitTags course.tags ∧ t ∈ splitTags student.interests) →
            wb.2 = 23/20 * nb.2))
      (scored_results_without_bonus m courses student taken_codes taken_grades)
      (scored_results m courses student taken_codes taken_grades) := by
  unfold scored_results_without_bonus scored_results
  apply forall2_filterMap
  intro x
  constructor
  · unfold score_entry_without_bonus score_entry
    cases coursesGet courses x.1 with
    | none => simp
    | some course =>
        dsimp only
        split_ifs <;> simp
  · intro y z hy hz
    unfold score_entry_without_bonus at hy
    unfold score_entry at hz
    cases hcg : coursesGet courses x.1 with
    | none => rw [hcg] at hy; cases hy
    | some course =>
        rw [hcg] at hy hz
        dsimp only at hy hz
        split_ifs at hy hz with h1 h2 h3
        obtain rfl := (Option.some.inj hy).symm
        obtain rfl := (Option.some.inj hz).symm
        refine ⟨rfl, course, hcg, by dsimp only; ring, ?_, ?_⟩
        · intro hno
          have hnil : (splitTags course.tags).inter (splitTags student.interests) = [] := by
            by_contra hc
            exact hno (inter_ne_nil_iff.mp hc)
          dsimp only
          simp only [interest_weight, hnil, ne_eq, not_true_eq_false, if_neg,
            not_false_eq_true, if_false]
          ring
        · intro hyes
          dsimp only
          rw [interest_weight, if_pos (inter_ne_nil_iff.mpr hyes)]
          ring

/-- Witness for C3 at a concrete input. -/
theorem interest_bonus_multiplies_matching_only_witness :
    List.Forall₂ (fun nb wb : String × ℚ =>
        nb.1 = wb.1 ∧
        ∃ course, coursesGet demoCatalog nb.1 = some course ∧
          wb.2 = interest_weight course demoStudent * nb.2 ∧
          ((¬ ∃ t, t ∈ splitTags course.tags ∧ t ∈ splitTags demoStudent.interests) →
            wb.2 = nb.2) ∧
          ((∃ t, t ∈ splitTags course.tags ∧ t ∈ splitTags demoStudent.interests) →
            wb.2 = 23/20 * nb.2))
      (scored_results_without_bonus demoModel demoCatalog demoStudent [] [])
      (scored_results demoModel demoCatalog demoStudent [] []) :=
  interest_bonus_multiplies_matching_only demoModel demoCatalog demoStudent [] []

/-- With no recorded grade values at all, every grade lookup is `None`. -/
lemma dictGet_none_of_no_values {grades : List (String × Option ℚ)}
    (h : (grades.map Prod.snd).filterMap id = []) (c : String) :
    dictGet grades c = none := by
  induction grades with
  | nil => rfl
  | cons kv t ih =>
      obtain ⟨k, v⟩ := kv
      cases v with
      | some g => simp at h
      | none =>
          have ht : (t.map Prod.snd).filterMap id = [] := by simpa using h
          cases hck : (c == k) with
          | true => simp [dictGet, List.lookup, hck]
          | false => simpa [dictGet, List.lookup, hck] using ih ht

/-- With no recorded grade values at all, every prerequisite average is
`None`. -/
lemma avg_grade_none_of_no_values {grades : List (String × Option ℚ)}
    (h : (grades.map Prod.snd).filterMap id = []) (codes : List String) :
    avg_grade_for_codes grades codes = none := by
  unfold avg_grade_for_codes
  have hnil : codes.filterMap (dictGet grades) = [] := by
    rw [List.filterMap_eq_nil_iff]
    intro a _
    exact dictGet_none_of_no_values h a
  simp [hnil]

/-- C4: each scored entry's final score is base probability × interest bonus ×
grade factor, where the factor comes from the prerequisite grade average when
one exists, else from the student's overall average, and is 1 when no grades
are available at all. -/
theorem grade_factor_from_prereq_average
    (m : SBMModel) (courses : List Course) (student : StudentProfile)
    (taken_codes : List String) (taken_grades : List (String × Option ℚ)) :
    ∀ e ∈ scored_results m courses student taken_codes taken_grades,
      ∃ p course,
        (e.1, p) ∈ m.classes.zip (m.predict_proba (encode_features student)) ∧
        coursesGet courses e.1 = some course ∧
        e.2 = p * interest_weight course student *
          grade_weight_of (prereq_avg_for taken_grades (prereqsOf courses e.1)) ∧
        (∀ a, avg_grade_for_codes taken_grades (prereqsOf courses e.1) = some a →
          prereq_avg_for taken_grades (prereqsOf courses e.1) = some a) ∧
        (avg_grade_for_codes taken_grades (prereqsOf courses e.1) = none →
          prereq_avg_for taken_grades (prereqsOf courses e.1)
            = overall_avg_grade taken_grades) ∧
        (∀ a, prereq_avg_for taken_grades (prereqsOf courses e.1) = some a →
          grade_weight_of (prereq_avg_for taken_grades (prereqsOf courses e.1))
            = 3/4 + a / 100 * (1/2)) ∧
        (prereq_avg_for taken_grades (prereqsOf courses e.1) = none →
          grade_weight_of (prereq_avg_for taken_grades (prereqsOf courses e.1)) = 1) ∧
        ((taken_grades.map Prod.snd).filterMap id = [] →
          grade_weight_of (prereq_avg_for taken_grades (prereqsOf courses e.1)) = 1) := by
  intro e he
  obtain ⟨p, course, hzip, hcg, -, -, -, hscore⟩ := mem_scored_results he
  refine ⟨p, course, hzip, hcg, hscore, ?_, ?_, ?_, ?_, ?_⟩
  · intro a ha; simp [prereq_avg_for, ha]
  · intro ha; simp [prereq_avg_for, ha]
  · intro a ha; simp [grade_weight_of, ha]
  · intro ha; simp [grade_weight_of, ha]
  · intro hno
    have h1 := avg_grade_none_of_no_values hno (prereqsOf courses e.1)
    have h2 : overall_avg_grade taken_grades = none := by
      unfold overall_avg_grade
      simp [hno]
    simp [grade_weight_of, prereq_avg_for, h1, h2]

/-- Witness for C4 at a concrete input. -/
theorem grade_factor_from_prereq_average_witness :
    ∃ p course,
      (("A", p) : String × ℚ) ∈ demoModel.classes.zip
        (demoModel.predict_proba (encode_features demoStudent)) ∧
      coursesGet demoCatalog "A" = some course ∧
      (2 : ℚ) = p * interest_weight course demoStudent *
        grade_weight_of (prereq_avg_for [] (prereqsOf demoCatalog "A")) ∧
      (∀ a, avg_grade_for_codes [] (prereqsOf demoCatalog "A") = some a →
        prereq_avg_for [] (prereqsOf demoCatalog "A") = some a) ∧
      (avg_grade_for_codes [] (prereqsOf demoCatalog "A") = none →
        prereq_avg_for [] (prereqsOf demoCatalog "A") = overall_avg_grade []) ∧
      (∀ a, prereq_avg_for [] (prereqsOf demoCatalog "A") = some a →
        grade_weight_of (prereq_avg_for [] (prereqsOf demoCatalog "A"))
          = 3/4 + a / 100 * (1/2)) ∧
      (prereq_avg_for [] (prereqsOf demoCatalog "A") = none →
        grade_weight_of (prereq_avg_for [] (prereqsOf demoCatalog "A")) = 1) ∧
      ((([] : List (String × Option ℚ)).map Prod.snd).filterMap id = [] →
        grade_weight_of (prereq_avg_for [] (prereqsOf demoCatalog "A")) = 1) :=
  grade_factor_from_prereq_average demoModel demoCatalog demoStudent [] []
    ("A", 2) (by rw [demo_scored]; exact List.mem_singleton.mpr rfl)

/-! ### Determinism and absence of persistence effects -/

/-- C9: the scorer is deterministic in the student's features — two calls with
identical features, taken codes, grade map and `top_k` against the same state
return the same result — and it performs no writes: every stored table is
unchanged. -/
theorem scorer_deterministic_and_persistence_free
    (db : Db) (s1 s2 : StudentProfile) (taken_codes : List String)
    (taken_grades : List (String × Option ℚ)) (top_k : Nat)
    (hy : s1.year = s2.year) (hm : s1.math_level = s2.math_level)
    (hp : s1.prog_level = s2.prog_level) (ha : s1.ai_level = s2.ai_level)
    (hs : s1.soft_level = s2.soft_level) (hi : s1.interests = s2.interests) :
    (recommendDb db s1 taken_codes taken_grades top_k).1
      = (recommendDb db s2 taken_codes taken_grades top_k).1 ∧
    (recommendDb db s1 taken_codes taken_grades top_k).2 = db ∧
    (recommendDb db s1 taken_codes taken_grades top_k).2.courses = db.courses ∧
    (recommendDb db s1 taken_codes taken_grades top_k).2.enrollments
      = db.enrollments ∧
    (recommendDb db s1 taken_codes taken_grades top_k).2.profiles = db.profiles ∧
    (recommendDb db s1 taken_codes taken_grades top_k).2.recommendations
      = db.recommendations := by
  have hse : s1 = s2 := by
    cases s1
    cases s2
    simp_all
  subst hse
  exact ⟨rfl, rfl, rfl, rfl, rfl, rfl⟩

/-- Witness for C9 at a concrete input. -/
theorem scorer_deterministic_and_persistence_free_witness :
    (recommendDb db2 demoStudent [] [] 5).1
      = (recommendDb db2 demoStudent [] [] 5).1 ∧
    (recommendDb db2 demoStudent [] [] 5).2 = db2 ∧
    (recommendDb db2 demoStudent [] [] 5).2.courses = db2.courses ∧
    (recommendDb db2 demoStudent [] [] 5).2.enrollments = db2.enrollments ∧
    (recommendDb db2 demoStudent [] [] 5).2.profiles = db2.profiles ∧
    (recommendDb db2 demoStudent [] [] 5).2.recommendations = db2.recommendations :=
  scorer_deterministic_and_persistence_free db2 demoStudent demoStudent [] [] 5
    rfl rfl rfl rfl rfl rfl

/-! ### The enrollment record's columns -/

/-- C7: the `grade` lookup the views perform on enrollment rows does not
resolve against the columns `models.py` declares for
`StudentCourseEnrollment` — the model lacks the optional grade field the spec
describes and the views (lines 80, 133, 146 of `views.py`) rely on, while the
relational lookup `course__code` and the declared columns do resolve. -/
theorem enrollment_grade_column_missing :
    queryResolves studentCourseEnrollmentColumns studentCoursesGradeQuery = false ∧
    resolveColumn studentCourseEnrollmentColumns "course__code" = true ∧
    resolveColumn studentCourseEnrollmentColumns "grade" = false ∧
    "grade" ∉ studentCourseEnrollmentColumns ∧
    "status" ∈ studentCourseEnrollmentColumns ∧
    "student" ∈ studentCourseEnrollmentColumns ∧
    "course" ∈ studentCourseEnrollmentColumns := by
  decide

/-! ### Error handling around a missing model artifact -/

/-- `ensure_student_profile` touches only the profile table. -/
lemma ensure_student_profile_fields (db : Db) (uid : Nat) :
    (ensure_student_profile db uid).2.model = db.model ∧
    (ensure_student_profile db uid).2.courses = db.courses ∧
    (ensure_student_profile db uid).2.enrollments = db.enrollments ∧
    (ensure_student_profile db uid).2.recommendations = db.recommendations := by
  unfold ensure_student_profile
  cases db.profiles.lookup uid <;> simp

/-- The taken-code list is insensitive to the profile ensure step. -/
lemma taken_of_ensure (db : Db) (uid sid : Nat) :
    taken_of (ensure_student_profile db uid).2 sid = taken_of db sid := by
  unfold taken_of completed_enrollments
  rw [(ensure_student_profile_fields db uid).2.2.1]

/-- The grade dict is insensitive to the profile ensure step. -/
lemma grades_of_ensure (db : Db) (uid sid : Nat) :
    grades_of (ensure_student_profile db uid).2 sid = grades_of db sid := by
  unfold grades_of completed_enrollments
  rw [(ensure_student_profile_fields db uid).2.2.1]

/-- C6 (amended): with the artifact missing, `recommend_for_profile` raises
the retrain-instruction error; the student recommendations view catches it and
shows the message over the unchanged stored rows; the teacher view does not
catch it, so the error propagates out of the view unhandled. -/
theorem missing_model_surfaces_retrain_message
    (db : Db) (uid sid : Nat) (student p : StudentProfile)
    (t : List String) (g : List (String × Option ℚ)) (k : Nat)
    (hmodel : db.model = none) (hsid : db.profiles.lookup sid = some student) :
    recommend_for_profile db.model db.courses p t g k
      = Except.error retrain_message ∧
    (student_recommendations db uid).1.messages = [retrain_message] ∧
    (student_recommendations db uid).2.recommendations = db.recommendations ∧
    teacher_student_recommendations db sid = Except.error retrain_message := by
  have hm2 : (ensure_student_profile db uid).2.model = none := by
    rw [(ensure_student_profile_fields db uid).1, hmodel]
  have hrec : recommend_for_profile (ensure_student_profile db uid).2.model
      (ensure_student_profile db uid).2.courses (ensure_student_profile db uid).1
      (taken_of (ensure_student_profile db uid).2 uid)
      (grades_of (ensure_student_profile db uid).2 uid) 5
      = Except.error retrain_message := by
    rw [hm2]
    rfl
  refine ⟨by rw [hmodel]; rfl, ?_, ?_, ?_⟩
  · simp only [student_recommendations]
    rw [hrec]
  · simp only [student_recommendations]
    rw [hrec]
    exact (ensure_student_profile_fields db uid).2.2.2
  · simp only [teacher_student_recommendations, hsid, hmodel, recommend_for_profile]

/-- Witness for C6 (amended) at a concrete input. -/
theorem missing_model_surfaces_retrain_message_witness :
    recommend_for_profile db0.model db0.courses demoStudent [] [] 5
      = Except.error retrain_message ∧
    (student_recommendations db0 0).1.messages = [retrain_message] ∧
    (student_recommendations db0 0).2.recommendations = db0.recommendations ∧
    teacher_student_recommendations db0 0 = Except.error retrain_message :=
  missing_model_surfaces_retrain_message db0 0 0 demoStudent demoStudent [] [] 5
    rfl rfl

/-- C6 counterexample to the claim as stated: at a concrete state with the
artifact missing, the teacher recommendation view does not convert the retrain
error into a displayed message — it returns the unhandled error itself (there
is no `try/except` around its scorer call). -/
theorem teacher_view_propagates_missing_model_error :
    teacher_student_recommendations db0 0 = Except.error retrain_message := rfl

/-! ### Atomic replacement of stored recommendation rows -/

/-- Every code in a successful result has a catalog course. -/
lemma recommend_codes_in_catalog {model : Option SBMModel} {courses : List Course}
    {student : StudentProfile} {taken_codes : List String}
    {taken_grades : List (String × Option ℚ)} {top_k : Nat}
    {recs : List (String × ℚ)}
    (h : recommend_for_profile model courses student taken_codes taken_grades top_k
      = Except.ok recs) :
    ∀ cs ∈ recs, ∃ c, coursesGet courses cs.1 = some c := by
  cases model with
  | none => exact absurd h (by simp [recommend_for_profile])
  | some m =>
      intro cs hcs
      rw [recommend_ok_inv h] at hcs
      have hmem := List.mem_mergeSort.mp (List.mem_of_mem_take hcs)
      obtain ⟨q, course, -, hcg, -⟩ := mem_scored_results hmem
      exact ⟨course, hcg⟩

/-- When every scored code has a catalog course, the stored rows are exactly
the scored results. -/
lemma new_recs_of_eq_map {courses : List Course} {sid : Nat} :
    ∀ {recs : List (String × ℚ)},
      (∀ cs ∈ recs, ∃ c, coursesGet courses cs.1 = some c) →
      new_recs_of courses sid recs
        = recs.map (fun cs => { student := sid, course := cs.1, score := cs.2 }) := by
  intro recs
  induction recs with
  | nil => intro _; rfl
  | cons x t ih =>
      intro h
      obtain ⟨c, hc⟩ := h x (by simp)
      have ht := ih (fun cs hcs => h cs (by simp [hcs]))
      unfold new_recs_of at ht ⊢
      simp only [List.filterMap_cons, List.map_cons, hc, Option.map_some']
      rw [ht]

/-- C10 (amended): refreshing a student's recommendations replaces the stored
rows atomically.  On a successful scoring both views delete exactly the
student's old rows and store exactly the newly computed ones in one state
transition; when scoring fails for the missing artifact, the stored rows are
untouched in both views, the student view renders them as-is, and the teacher
view propagates the error without rendering. -/
theorem refresh_replaces_rows_atomically
    (db : Db) (uid sid : Nat) (student : StudentProfile)
    (hsid : db.profiles.lookup sid = some student) :
    (∀ recs, recommend_for_profile db.model db.courses
        (ensure_student_profile db uid).1 (taken_of db uid) (grades_of db uid) 5
        = Except.ok recs →
      (student_recommendations db uid).2.recommendations
        = db.recommendations.filter (fun r => !(r.student == uid))
            ++ recs.map (fun cs => { student := uid, course := cs.1, score := cs.2 })) ∧
    (∀ msg, recommend_for_profile db.model db.courses
        (ensure_student_profile db uid).1 (taken_of db uid) (grades_of db uid) 5
        = Except.error msg →
      (student_recommendations db uid).2.recommendations = db.recommendations ∧
      (student_recommendations db uid).1.recommendations
        = db.recommendations.filter (fun r => r.student == uid)) ∧
    (∀ recs page db2, recommend_for_profile db.model db.courses student
        (taken_of db sid) (grades_of db sid) 5 = Except.ok recs →
      teacher_student_recommendations db sid = Except.ok (page, db2) →
      db2.recommendations
        = db.recommendations.filter (fun r => !(r.student == sid))
            ++ recs.map (fun cs => { student := sid, course := cs.1, score := cs.2 })) ∧
    (db.model = none →
      teacher_student_recommendations db sid = Except.error retrain_message) := by
  have hf := ensure_student_profile_fields db uid
  refine ⟨?_, ?_, ?_, ?_⟩
  · intro recs hok
    have hok2 : recommend_for_profile (ensure_student_profile db uid).2.model
        (ensure_student_profile db uid).2.courses (ensure_student_profile db uid).1
        (taken_of (ensure_student_profile db uid).2 uid)
        (grades_of (ensure_student_profile db uid).2 uid) 5 = Except.ok recs := by
      rw [hf.1, hf.2.1, taken_of_ensure, grades_of_ensure]
      exact hok
    simp only [student_recommendations]
    rw [hok2]
    simp only [replace_recommendations]
    rw [hf.2.2.2, hf.2.1]
    rw [new_recs_of_eq_map (recommend_codes_in_catalog hok)]
  · intro msg herr
    have herr2 : recommend_for_profile (ensure_student_profile db uid).2.model
        (ensure_student_profile db uid).2.courses (ensure_student_profile db uid).1
        (taken_of (ensure_student_profile db uid).2 uid)
        (grades_of (ensure_student_profile db uid).2 uid) 5 = Except.error msg := by
      rw [hf.1, hf.2.1, taken_of_ensure, grades_of_ensure]
      exact herr
    constructor
    · simp only [student_recommendations]
      rw [herr2]
      exact hf.2.2.2
    · simp only [student_recommendations]
      rw [herr2]
      simp only []
      rw [hf.2.2.2]
  · intro recs page db2 hok hview
    simp only [teacher_student_recommendations, hsid] at hview
    rw [hok] at hview
    simp only [replace_recommendations, Except.ok.injEq, Prod.mk.injEq] at hview
    rw [← hview.2]
    simp only []
    rw [new_recs_of_eq_map (recommend_codes_in_catalog hok)]
  · intro hmodel
    simp only [teacher_student_recommendations, hsid, hmodel, recommend_for_profile]

/-- Witness for C10 (amended) at concrete inputs: a successful refresh stores
exactly the new rows next to the other student's rows, and a failed teacher
refresh propagates the error. -/
theorem refresh_replaces_rows_atomically_witness :
    (student_recommendations db2 0).2.recommendations
      = db2.recommendations.filter (fun r => !(r.student == 0))
          ++ ([("A", (2 : ℚ))].map
            (fun cs => ({ student := 0, course := cs.1, score := cs.2 } : Recommendation))) ∧
    teacher_student_recommendations db1 0 = Except.error retrain_message := by
  have h2 := refresh_replaces_rows_atomically db2 0 0 demoStudent rfl
  have h1 := refresh_replaces_rows_atomically db1 0 0 demoStudent rfl
  exact ⟨h2.1 [("A", 2)] demo_recommend, h1.2.2.2 rfl⟩

/-- C10 counterexample to the claim as stated: at a concrete state holding a
stored recommendation row, a teacher-initiated refresh with the artifact
missing renders nothing at all (the error propagates), so the stored rows are
not "rendered as-is" by that view. -/
theorem teacher_refresh_renders_nothing_on_missing_model :
    db1.recommendations = [{ student := 0, course := "Z", score := 1 }] ∧
    teacher_student_recommendations db1 0 = Except.error retrain_message :=
  ⟨rfl, rfl⟩

/-! ### Form validation of prerequisite selection -/

lemma mem_pySortStrings {x : String} {l : List String} :
    x ∈ pySortStrings l ↔ x ∈ l := List.mem_mergeSort

lemma pySortStrings_eq_nil_iff {l : List String} :
    pySortStrings l = [] ↔ l = [] := by
  constructor
  · intro h
    have hlen := congrArg List.length h
    simp only [pySortStrings, List.length_mergeSort, List.length_nil] at hlen
    exact List.length_eq_zero.mp hlen
  · intro h
    rw [h]
    exact List.mergeSort_nil

/-- A selected code's missing-prerequisite list is non-empty exactly when some
of its prerequisites is not selected. -/
lemma missing_for_ne_nil_iff {prereq_map : List (String × List String)}
    {selected_codes : List String} {code : String} :
    missing_for prereq_map selected_codes code ≠ [] ↔
      ∃ p ∈ (prereq_map.lookup code).getD [], p ∉ selected_codes := by
  unfold missing_for
  rw [Ne, pySortStrings_eq_nil_iff]
  constructor
  · intro h
    obtain ⟨p, hp⟩ := List.exists_mem_of_ne_nil _ h
    rw [List.mem_filter] at hp
    exact ⟨p, List.mem_dedup.mp hp.1, by simpa using hp.2⟩
  · rintro ⟨p, h1, h2⟩ hnil
    have hmem : p ∈ (((prereq_map.lookup code).getD []).dedup).filter
        (fun p => p ∉ selected_codes) :=
      List.mem_filter.mpr ⟨List.mem_dedup.mpr h1, by simpa using h2⟩
    rw [hnil] at hmem
    cases hmem

/-- Characterisation of the `invalid` list built by `clean_courses`. -/
lemma mem_invalid_selections {prereq_map : List (String × List String)}
    {selected_codes : List String} {code : String} {missing : List String} :
    (code, missing) ∈ invalid_selections prereq_map selected_codes ↔
      code ∈ selected_codes ∧ missing = missing_for prereq_map selected_codes code ∧
        missing ≠ [] := by
  unfold invalid_selections
  rw [List.mem_filterMap]
  constructor
  · rintro ⟨code2, hmem, hsome⟩
    by_cases hnil : missing_for prereq_map selected_codes code2 = []
    · rw [if_pos hnil] at hsome
      cases hsome
    · rw [if_neg hnil] at hsome
      obtain ⟨rfl, rfl⟩ := Prod.mk.injEq .. ▸ Option.some.inj hsome
      exact ⟨List.mem_dedup.mp (mem_pySortStrings.mp hmem), rfl, hnil⟩
  · rintro ⟨hmem, rfl, hne⟩
    refine ⟨code, mem_pySortStrings.mpr (List.mem_dedup.mpr hmem), ?_⟩
    rw [if_neg hne]

/-- C8: `clean_courses` rejects a selection exactly when some selected course
has a prerequisite code not also selected; the rejection message is built from
the invalid courses paired with exactly their missing prerequisite codes, and
a selection with all prerequisites satisfied is returned unchanged. -/
theorem clean_courses_validates_prereqs
    (prereq_map : List (String × List String)) (courses : List Course) :
    (invalid_selections prereq_map (courses.map (fun c => c.code)) = [] →
      clean_courses prereq_map courses = Except.ok courses) ∧
    (invalid_selections prereq_map (courses.map (fun c => c.code)) ≠ [] →
      clean_courses prereq_map courses = Except.error (prereq_error_message
        (invalid_selections prereq_map (courses.map (fun c => c.code))))) ∧
    (invalid_selections prereq_map (courses.map (fun c => c.code)) ≠ [] ↔
      ∃ c ∈ courses, ∃ p ∈ (prereq_map.lookup c.code).getD [],
        p ∉ courses.map (fun c2 => c2.code)) ∧
    (∀ code missing,
      (code, missing) ∈ invalid_selections prereq_map (courses.map (fun c => c.code)) ↔
        code ∈ courses.map (fun c2 => c2.code) ∧
        missing = missing_for prereq_map (courses.map (fun c2 => c2.code)) code ∧
        missing ≠ []) := by
  refine ⟨?_, ?_, ?_, fun code missing => mem_invalid_selections⟩
  · intro h
    unfold clean_courses
    rw [if_pos h]
  · intro h
    unfold clean_courses
    rw [if_neg h]
  · constructor
    · intro h
      obtain ⟨⟨code, missing⟩, hmem⟩ := List.exists_mem_of_ne_nil _ h
      obtain ⟨h1, h2, h3⟩ := mem_invalid_selections.mp hmem
      obtain ⟨c, hc, rfl⟩ := List.mem_map.mp h1
      obtain ⟨p, hp1, hp2⟩ := missing_for_ne_nil_iff.mp (h2 ▸ h3)
      exact ⟨c, hc, p, hp1, hp2⟩
    · rintro ⟨c, hc, p, hp1, hp2⟩ hnil
      have hmem : (c.code, missing_for prereq_map (courses.map (fun c2 => c2.code))
          c.code) ∈ invalid_selections prereq_map (courses.map (fun c2 => c2.code)) :=
        mem_invalid_selections.mpr ⟨List.mem_map.mpr ⟨c, hc, rfl⟩, rfl,
          missing_for_ne_nil_iff.mpr ⟨p, hp1, hp2⟩⟩
      rw [hnil] at hmem
      cases hmem

/-- Evaluation of the singleton sort used by the witness. -/
lemma pySortStrings_singleton (x : String) : pySortStrings [x] = [x] :=
  List.mergeSort_singleton x

/-- With only `"B"` selected, its prerequisite `"A"` is missing. -/
lemma demo_missing_for_B :
    missing_for [("B", ["A"])] ["B"] "B" = ["A"] := by
  unfold missing_for
  exact pySortStrings_singleton "A"

/-- The invalid list for selecting `"B"` alone. -/
lemma demo_invalid_B :
    invalid_selections [("B", ["A"])] ["B"] = [("B", ["A"])] := by
  unfold invalid_selections
  rw [show (["B"] : List String).dedup = ["B"] from rfl, pySortStrings_singleton]
  rw [List.filterMap_cons, demo_missing_for_B]
  rfl

/-- The invalid list for selecting `"A"` alone is empty. -/
lemma demo_invalid_A :
    invalid_selections [("B", ["A"])] ["A"] = [] := by
  unfold invalid_selections
  rw [show (["A"] : List String).dedup = ["A"] from rfl, pySortStrings_singleton]
  rw [List.filterMap_cons]
  have hmf : missing_for [("B", ["A"])] ["A"] "A" = [] := by
    unfold missing_for
    exact List.mergeSort_nil
  rw [hmf]
  rfl

/-- Witness for C8 at concrete inputs: selecting `"B"` without its
prerequisite `"A"` is rejected with the message naming `"B"` and its missing
prerequisite, while selecting `"A"` alone is accepted unchanged. -/
theorem clean_courses_validates_prereqs_witness :
    clean_courses [("B", ["A"])] [courseB]
      = Except.error (prereq_error_message
          (invalid_selections [("B", ["A"])] ["B"])) ∧
    clean_courses [("B", ["A"])] [courseA] = Except.ok [courseA] := by
  have h1 := clean_courses_validates_prereqs [("B", ["A"])] [courseB]
  have h2 := clean_courses_validates_prereqs [("B", ["A"])] [courseA]
  constructor
  · exact h1.2.1 (by
      show invalid_selections [("B", ["A"])] ["B"] ≠ []
      rw [demo_invalid_B]
      simp)
  · exact h2.1 (by
      show invalid_selections [("B", ["A"])] ["A"] = []
      exact demo_invalid_A)

end AdaptiveEducation
